import Mathlib

/-!
Shallow embedding of the crowdfunding program in
`programs/test_project/src/lib.rs` (Anchor/Solana).

The program keeps one `Campaign` account per campaign and exposes three
instructions: `initialize` (called `Open` in the design document), `deposit`
(`Contribute`) and `finalize` (`Settle`).  Lamport amounts are `u64` in the
source; here they are `Nat` together with explicit `checked_sub`/`checked_add`
guards against the `u64` range, exactly as the source performs them.  Solana
public keys are opaque identities compared only for equality; they are
modelled as `Nat`.

The Anchor account constraints that run before each handler body
(`has_one = beneficiary`, `has_one = authority`,
`constraint = !campaign.is_finalized` on `Finalize`) are part of the embedded
operations, in the order Anchor evaluates them (`has_one` checks before raw
constraints).  Following the design document, a failed structural identity
check is reported as `Unauthorized`, the error the handler itself uses for
the same comparison.  The system-program lamport transfer is the external
Ledger collaborator: a transfer out of the tracked vault fails when the vault
balance is insufficient (modelled as `ProgError.ledger`); a transfer in from
the donor is a collaborator action whose requested amount the embedding
records in the result.

A transaction is atomic: any error leaves the account state untouched, which
the embedding expresses by returning `Except` and, at the state-machine
level, by `applyOp` keeping the previous state on any error.
-/

namespace TestProject

/-- Exclusive upper bound of the `u64` machine-integer type used by the
program for lamport amounts. -/
def U64LIMIT : Nat := 2 ^ 64

/-- `u64::checked_sub`: `a - b`, or `none` if the subtraction would
underflow. -/
def checkedSub (a b : Nat) : Option Nat :=
  if b ≤ a then some (a - b) else none

/-- `u64::checked_add`: `a + b`, or `none` if the sum would not fit in a
`u64`. -/
def checkedAdd (a b : Nat) : Option Nat :=
  if a + b < U64LIMIT then some (a + b) else none

/-- The `Campaign` account: the persistent record of one campaign.
`authority` and `beneficiary` are public keys, modelled as opaque `Nat`
identities. -/
structure Campaign where
  funds : Nat
  target : Nat
  campaign_id : Nat
  authority : Nat
  beneficiary : Nat
  is_finalized : Bool
  deriving Repr, DecidableEq

/-- The program's `ErrorCode` enum. -/
inductive ErrorCode where
  | CampaignFinalized
  | InvalidAmount
  | NothingToFinalize
  | TargetAlreadyReached
  | MathOverflow
  | Unauthorized
  deriving Repr, DecidableEq

/-- An error aborting an instruction: either one of the program's own
`ErrorCode`s, or a failure reported by the system-program transfer CPI
(the Ledger collaborator), e.g. an insufficient source balance. -/
inductive ProgError where
  | code : ErrorCode → ProgError
  | ledger : ProgError
  deriving Repr, DecidableEq

/-- Successful result of `deposit`: the updated campaign record and the
number of lamports the instruction transferred from the donor into the
campaign's lamport vault. -/
structure DepositOk where
  campaign : Campaign
  transferred : Nat
  deriving Repr, DecidableEq

/-- Successful result of `finalize`: the updated campaign record, the
lamports transferred from the vault to the beneficiary, and the residual
lamports transferred from the vault to the authority (`0` when the residual
transfer was skipped because the vault was already empty). -/
structure FinalizeOk where
  campaign : Campaign
  toBeneficiary : Nat
  toAuthority : Nat
  deriving Repr, DecidableEq

/-- The `initialize` instruction (`Open`): requires `target > 0`, then
creates the record with `funds = 0`, `is_finalized = false`, the supplied
`campaign_id` and `target`, the creator as `authority` and the supplied
`beneficiary`. -/
def initCampaign (campaign_id target creator beneficiary : Nat) :
    Except ProgError Campaign :=
  if target > 0 then
    .ok { funds := 0, target := target, campaign_id := campaign_id,
          authority := creator, beneficiary := beneficiary,
          is_finalized := false }
  else .error (.code .InvalidAmount)

/-- The `deposit` instruction (`Contribute`) on campaign `c` with a donor
offering `amount` lamports.  Checks, in source order: `amount > 0`,
`!is_finalized`, `remaining = target.checked_sub(funds)` (`MathOverflow` on
underflow), `remaining > 0`; then accepts `counted = min amount remaining`,
transfers `counted` from the donor to the vault and updates
`funds := funds.checked_add(counted)` (`MathOverflow` on overflow). -/
def deposit (c : Campaign) (amount : Nat) : Except ProgError DepositOk :=
  if amount = 0 then .error (.code .InvalidAmount)
  else if c.is_finalized then .error (.code .CampaignFinalized)
  else
    match checkedSub c.target c.funds with
    | none => .error (.code .MathOverflow)
    | some remaining =>
      if remaining = 0 then .error (.code .TargetAlreadyReached)
      else
        let counted := min amount remaining
        match checkedAdd c.funds counted with
        | none => .error (.code .MathOverflow)
        | some newFunds =>
          .ok { campaign := { c with funds := newFunds },
                transferred := counted }

/-- The `finalize` instruction (`Settle`) on campaign `c`, called by the
signer `caller` (the beneficiary account) with the `authority` account
`authorityAcc`, while the campaign's lamport vault holds `vaultBal`.
Checks, in the order the Anchor constraints and the handler body run:
`caller = c.beneficiary` (has_one plus the handler's own key check,
`Unauthorized`), `authorityAcc = c.authority` (has_one, `Unauthorized`),
`!is_finalized` (`CampaignFinalized`), `funds > 0` (`NothingToFinalize`);
then transfers exactly `funds` from the vault to the beneficiary (a Ledger
failure if the vault holds less), transfers the re-read vault remainder to
the authority when it is nonzero, and finally sets `is_finalized := true`
and `funds := 0`. -/
def finalize (c : Campaign) (caller authorityAcc vaultBal : Nat) :
    Except ProgError FinalizeOk :=
  if caller ≠ c.beneficiary then .error (.code .Unauthorized)
  else if authorityAcc ≠ c.authority then .error (.code .Unauthorized)
  else if c.is_finalized then .error (.code .CampaignFinalized)
  else if c.funds = 0 then .error (.code .NothingToFinalize)
  else if vaultBal < c.funds then .error .ledger
  else
    .ok { campaign := { c with is_finalized := true, funds := 0 },
          toBeneficiary := c.funds,
          toAuthority := vaultBal - c.funds }

/-- Joint state of one campaign record and its lamport vault balance. -/
structure ChainState where
  campaign : Campaign
  vault : Nat
  deriving Repr, DecidableEq

/-- State right after a successful `initialize`: the record plus the freshly
created, empty vault. -/
def initState (c : Campaign) : ChainState := { campaign := c, vault := 0 }

/-- One instruction targeting an existing campaign. -/
inductive Op where
  | deposit (amount : Nat)
  | finalize (caller authorityAcc : Nat)
  deriving Repr, DecidableEq

/-- Apply one instruction to the joint state.  An error leaves the state
unchanged (a Solana transaction is all-or-nothing); a successful `deposit`
also credits the vault with the transferred lamports, and a successful
`finalize` drains the vault by both outgoing transfers. -/
def applyOp (s : ChainState) (op : Op) : ChainState :=
  match op with
  | .deposit amount =>
    match deposit s.campaign amount with
    | .ok r => { campaign := r.campaign, vault := s.vault + r.transferred }
    | .error _ => s
  | .finalize caller authorityAcc =>
    match finalize s.campaign caller authorityAcc s.vault with
    | .ok r =>
      { campaign := r.campaign,
        vault := s.vault - (r.toBeneficiary + r.toAuthority) }
    | .error _ => s

/-- Run a sequence of instructions from a starting state. -/
def run (s : ChainState) (ops : List Op) : ChainState := ops.foldl applyOp s

end TestProject

namespace TestProject

/-! ### General lemmas about the embedded instructions -/

/-- Inversion for a successful checked subtraction. -/
theorem checkedSub_some {a b r : Nat} (h : checkedSub a b = some r) :
    b ≤ a ∧ r = a - b := by
  unfold checkedSub at h
  split at h
  · exact ⟨by assumption, (Option.some.inj h).symm⟩
  · simp at h

/-- Inversion for a successful checked addition. -/
theorem checkedAdd_some {a b r : Nat} (h : checkedAdd a b = some r) :
    a + b < U64LIMIT ∧ r = a + b := by
  unfold checkedAdd at h
  split at h
  · exact ⟨by assumption, (Option.some.inj h).symm⟩
  · simp at h

/-- Checked subtraction succeeds when no underflow is possible. -/
theorem checkedSub_of_le {a b : Nat} (h : b ≤ a) :
    checkedSub a b = some (a - b) := by
  simp [checkedSub, h]

/-- Checked addition succeeds when the sum fits in a `u64`. -/
theorem checkedAdd_of_lt {a b : Nat} (h : a + b < U64LIMIT) :
    checkedAdd a b = some (a + b) := by
  simp [checkedAdd, h]

/-- Inversion for a successful `deposit`: all its guards passed and the
result is the capped update. -/
theorem deposit_ok_spec {c : Campaign} {a : Nat} {r : DepositOk}
    (h : deposit c a = .ok r) :
    0 < a ∧ c.is_finalized = false ∧ c.funds < c.target ∧
    r = { campaign := { c with funds := c.funds + min a (c.target - c.funds) },
          transferred := min a (c.target - c.funds) } := by
  unfold deposit at h
  split at h
  · simp at h
  rename_i ha
  split at h
  · simp at h
  rename_i hfin
  split at h
  · simp at h
  rename_i remaining heq
  obtain ⟨hle, hrem⟩ := checkedSub_some heq
  split at h
  · simp at h
  rename_i hne
  simp only [] at h
  split at h
  · simp at h
  rename_i newFunds hadd
  obtain ⟨hlim, hnf⟩ := checkedAdd_some hadd
  subst hrem
  subst hnf
  refine ⟨by omega, by simpa using hfin, by omega, ?_⟩
  exact (Except.ok.inj h).symm

/-- Inversion for a successful `finalize`: all its guards passed, the payout
is exactly the accounted funds, and the record is closed out. -/
theorem finalize_ok_spec {c : Campaign} {caller authorityAcc vaultBal : Nat}
    {r : FinalizeOk} (h : finalize c caller authorityAcc vaultBal = .ok r) :
    caller = c.beneficiary ∧ authorityAcc = c.authority ∧
    c.is_finalized = false ∧ 0 < c.funds ∧ c.funds ≤ vaultBal ∧
    r = { campaign := { c with is_finalized := true, funds := 0 },
          toBeneficiary := c.funds, toAuthority := vaultBal - c.funds } := by
  unfold finalize at h
  split_ifs at h with h1 h2 h3 h4 h5
  exact ⟨not_not.mp h1, not_not.mp h2, by simpa using h3, by omega,
    by omega, (Except.ok.inj h).symm⟩

/-- `deposit` computed at the happy path. -/
theorem deposit_ok_of {c : Campaign} {a : Nat}
    (ha : 0 < a) (hfin : c.is_finalized = false) (hlt : c.funds < c.target)
    (hw : c.target < U64LIMIT) :
    deposit c a =
      .ok { campaign := { c with funds := c.funds + min a (c.target - c.funds) },
            transferred := min a (c.target - c.funds) } := by
  have hmin := Nat.min_le_right a (c.target - c.funds)
  simp [deposit, checkedSub_of_le (Nat.le_of_lt hlt),
    checkedAdd_of_lt (show c.funds + min a (c.target - c.funds) < U64LIMIT by omega),
    hfin, show ¬ a = 0 by omega, show ¬ (c.target - c.funds = 0) by omega]

/-- A `deposit` on a finalized campaign always aborts (with `InvalidAmount`
when the offered amount is zero, `CampaignFinalized` otherwise). -/
theorem deposit_finalized {c : Campaign} (a : Nat) (h : c.is_finalized = true) :
    deposit c a =
      .error (.code (if a = 0 then .InvalidAmount else .CampaignFinalized)) := by
  by_cases h0 : a = 0
  · simp [deposit, h0]
  · simp [deposit, h0, h]

/-- A `finalize` on a finalized campaign always aborts. -/
theorem finalize_finalized {c : Campaign} (caller authorityAcc vaultBal : Nat)
    (h : c.is_finalized = true) :
    ∃ e, finalize c caller authorityAcc vaultBal = .error e := by
  unfold finalize
  by_cases h1 : caller ≠ c.beneficiary
  · exact ⟨.code .Unauthorized, by simp [h1]⟩
  · by_cases h2 : authorityAcc ≠ c.authority
    · exact ⟨.code .Unauthorized, by simp [h1, h2]⟩
    · exact ⟨.code .CampaignFinalized, by simp [h1, h2, h]⟩

/-- A failed `deposit` leaves the joint state untouched. -/
theorem applyOp_deposit_error {s : ChainState} {a : Nat} {e : ProgError}
    (h : deposit s.campaign a = .error e) :
    applyOp s (.deposit a) = s := by
  simp [applyOp, h]

/-- A failed `finalize` leaves the joint state untouched. -/
theorem applyOp_finalize_error {s : ChainState} {caller authorityAcc : Nat}
    {e : ProgError} (h : finalize s.campaign caller authorityAcc s.vault = .error e) :
    applyOp s (.finalize caller authorityAcc) = s := by
  simp [applyOp, h]

/-- A predicate preserved by every instruction holds after any run. -/
theorem run_preserves (P : ChainState → Prop)
    (hP : ∀ s op, P s → P (applyOp s op)) :
    ∀ (ops : List Op) (s : ChainState), P s → P (run s ops) := by
  intro ops
  induction ops with
  | nil => intro s h; exact h
  | cons op ops ih => intro s h; exact ih _ (hP _ _ h)

/-- One instruction preserves `funds ≤ target`. -/
theorem applyOp_funds_le {s : ChainState} (op : Op)
    (h : s.campaign.funds ≤ s.campaign.target) :
    (applyOp s op).campaign.funds ≤ (applyOp s op).campaign.target := by
  cases op with
  | deposit a =>
    cases hd : deposit s.campaign a with
    | ok r =>
      obtain ⟨-, -, hlt, rfl⟩ := deposit_ok_spec hd
      have hmin := Nat.min_le_right a (s.campaign.target - s.campaign.funds)
      simp only [applyOp, hd]
      omega
    | error e => simpa [applyOp, hd] using h
  | finalize caller authorityAcc =>
    cases hf : finalize s.campaign caller authorityAcc s.vault with
    | ok r =>
      obtain ⟨-, -, -, -, -, rfl⟩ := finalize_ok_spec hf
      simp [applyOp, hf]
    | error e => simpa [applyOp, hf] using h

/-- One instruction preserves "finalized implies zero accounted funds". -/
theorem applyOp_finalized_funds {s : ChainState} (op : Op)
    (h : s.campaign.is_finalized = true → s.campaign.funds = 0) :
    (applyOp s op).campaign.is_finalized = true →
      (applyOp s op).campaign.funds = 0 := by
  cases op with
  | deposit a =>
    cases hd : deposit s.campaign a with
    | ok r =>
      obtain ⟨-, hfin, -, rfl⟩ := deposit_ok_spec hd
      simp [applyOp, hd, hfin]
    | error e => simpa [applyOp, hd] using h
  | finalize caller authorityAcc =>
    cases hf : finalize s.campaign caller authorityAcc s.vault with
    | ok r =>
      obtain ⟨-, -, -, -, -, rfl⟩ := finalize_ok_spec hf
      simp [applyOp, hf]
    | error e => simpa [applyOp, hf] using h

/-- One instruction never clears the finalized flag. -/
theorem applyOp_finalized_mono {s : ChainState} (op : Op)
    (h : s.campaign.is_finalized = true) :
    (applyOp s op).campaign.is_finalized = true := by
  cases op with
  | deposit a =>
    have hd := deposit_finalized a h
    simpa [applyOp, hd] using h
  | finalize caller authorityAcc =>
    obtain ⟨e, he⟩ := finalize_finalized caller authorityAcc s.vault h
    simpa [applyOp, he] using h

/-! ### Claim theorems -/

/-- Claim C1: capped acceptance of `Contribute`.  A deposit of a positive
amount on a non-finalized campaign with `remaining = target - funds > 0`
succeeds, the accounted funds grow by exactly `counted = min amount remaining`,
and exactly `counted` lamports (strictly fewer than `amount` whenever
`amount > remaining`) move from the donor into the campaign's vault. -/
theorem deposit_capped_acceptance (s : ChainState) (amount : Nat)
    (hamt : 0 < amount) (hfin : s.campaign.is_finalized = false)
    (hrem : 0 < s.campaign.target - s.campaign.funds)
    (hw : s.campaign.target < U64LIMIT) :
    deposit s.campaign amount =
      .ok { campaign := { s.campaign with
              funds := s.campaign.funds +
                min amount (s.campaign.target - s.campaign.funds) },
            transferred := min amount (s.campaign.target - s.campaign.funds) } ∧
    applyOp s (.deposit amount) =
      { campaign := { s.campaign with
          funds := s.campaign.funds +
            min amount (s.campaign.target - s.campaign.funds) },
        vault := s.vault + min amount (s.campaign.target - s.campaign.funds) } ∧
    (s.campaign.target - s.campaign.funds < amount →
      min amount (s.campaign.target - s.campaign.funds) < amount) := by
  have hd := deposit_ok_of hamt hfin (by omega) hw
  refine ⟨hd, by simp [applyOp, hd], by omega⟩

/-- Claim C1, witness: the spec's scenario step where a 60-lamport offer on a
campaign needing 40 is truncated to 40. -/
theorem deposit_capped_acceptance_witness :
    deposit ⟨60, 100, 1, 10, 20, false⟩ 60 =
      .ok ⟨⟨100, 100, 1, 10, 20, false⟩, 40⟩ ∧
    applyOp ⟨⟨60, 100, 1, 10, 20, false⟩, 60⟩ (.deposit 60) =
      ⟨⟨100, 100, 1, 10, 20, false⟩, 100⟩ ∧
    (100 - 60 < 60 → min 60 (100 - 60) < 60) :=
  deposit_capped_acceptance ⟨⟨60, 100, 1, 10, 20, false⟩, 60⟩ 60
    (by decide) rfl (by decide) (by decide)

/-- Inversion for a successful `initCampaign`. -/
theorem initCampaign_ok_spec {cid target creator ben : Nat} {c : Campaign}
    (h : initCampaign cid target creator ben = .ok c) :
    0 < target ∧
    c = { funds := 0, target := target, campaign_id := cid,
          authority := creator, beneficiary := ben, is_finalized := false } := by
  unfold initCampaign at h
  split at h
  · exact ⟨by assumption, (Except.ok.inj h).symm⟩
  · simp at h

/-- Claim C2: state invariant.  Starting from any successfully created
campaign, after every sequence of `deposit`/`finalize` instructions the
record satisfies `0 ≤ funds ≤ target` (failed instructions change nothing,
so the invariant holds after every intermediate step as well). -/
theorem state_invariant_funds_le_target
    (cid target creator ben : Nat) (c0 : Campaign)
    (h : initCampaign cid target creator ben = .ok c0) (ops : List Op) :
    0 ≤ (run (initState c0) ops).campaign.funds ∧
    (run (initState c0) ops).campaign.funds ≤
      (run (initState c0) ops).campaign.target := by
  obtain ⟨-, rfl⟩ := initCampaign_ok_spec h
  exact ⟨Nat.zero_le _,
    run_preserves (fun s => s.campaign.funds ≤ s.campaign.target)
      (fun s op hs => applyOp_funds_le op hs) ops _ (Nat.zero_le _)⟩

/-- Claim C2, witness: the invariant after the spec's scenario run. -/
theorem state_invariant_funds_le_target_witness :
    0 ≤ (run (initState ⟨0, 100, 1, 10, 20, false⟩)
          [.deposit 60, .deposit 60, .deposit 1, .finalize 20 10]).campaign.funds ∧
    (run (initState ⟨0, 100, 1, 10, 20, false⟩)
        [.deposit 60, .deposit 60, .deposit 1, .finalize 20 10]).campaign.funds ≤
      (run (initState ⟨0, 100, 1, 10, 20, false⟩)
        [.deposit 60, .deposit 60, .deposit 1, .finalize 20 10]).campaign.target :=
  state_invariant_funds_le_target 1 100 10 20 ⟨0, 100, 1, 10, 20, false⟩ rfl
    [.deposit 60, .deposit 60, .deposit 1, .finalize 20 10]

/-- Claim C3: settle effect and precondition.  A `finalize` by the
beneficiary (with the record's authority account) on a non-finalized
campaign fails with `NothingToFinalize` when `funds = 0`; when `funds > 0`
(and the vault covers them) it pays exactly `funds` to the beneficiary,
sends the entire vault remainder to the authority, and closes the record
with `is_finalized = true` and `funds = 0`. -/
theorem finalize_settle_spec (c : Campaign) (vaultBal : Nat)
    (hfin : c.is_finalized = false) :
    (c.funds = 0 →
      finalize c c.beneficiary c.authority vaultBal =
        .error (.code .NothingToFinalize)) ∧
    (0 < c.funds → c.funds ≤ vaultBal →
      finalize c c.beneficiary c.authority vaultBal =
        .ok { campaign := { c with is_finalized := true, funds := 0 },
              toBeneficiary := c.funds,
              toAuthority := vaultBal - c.funds }) := by
  constructor
  · intro h0
    unfold finalize
    rw [if_neg (by simp), if_neg (by simp), if_neg (by simp [hfin]), if_pos h0]
  · intro hpos hle
    unfold finalize
    rw [if_neg (by simp), if_neg (by simp), if_neg (by simp [hfin]),
      if_neg (by omega), if_neg (by omega)]

/-- Claim C3, witness: settling a fully funded campaign pays the whole
vault to the beneficiary, and settling an empty one is refused. -/
theorem finalize_settle_spec_witness :
    finalize ⟨100, 100, 1, 10, 20, false⟩ 20 10 100 =
      .ok ⟨⟨0, 100, 1, 10, 20, true⟩, 100, 0⟩ ∧
    finalize ⟨0, 50, 2, 10, 20, false⟩ 20 10 0 =
      .error (.code .NothingToFinalize) :=
  ⟨(finalize_settle_spec ⟨100, 100, 1, 10, 20, false⟩ 100 rfl).2
      (by decide) (by decide),
   (finalize_settle_spec ⟨0, 50, 2, 10, 20, false⟩ 0 rfl).1 rfl⟩

/-- Claim C4, counterexample: after a successful `finalize`, a `deposit` of
amount `0` on the finalized campaign fails with `InvalidAmount`, not with
`CampaignFinalized` as the claim states for every deposit. -/
theorem settle_idempotent_refusal_cex :
    finalize ⟨40, 100, 1, 10, 20, false⟩ 20 10 40 =
      .ok ⟨⟨0, 100, 1, 10, 20, true⟩, 40, 0⟩ ∧
    deposit ⟨0, 100, 1, 10, 20, true⟩ 0 = .error (.code .InvalidAmount) ∧
    ErrorCode.InvalidAmount ≠ ErrorCode.CampaignFinalized :=
  ⟨rfl, rfl, by decide⟩

/-- Claim C4 (amended): after one successful `finalize`, a second `finalize`
by the beneficiary with the record's authority fails with
`CampaignFinalized`, and so does any `deposit` with positive amount (a
zero-amount deposit fails with `InvalidAmount` instead); in every case no
lamports move and the joint state is unchanged, so funds are never disbursed
twice. -/
theorem settle_idempotent_refusal (c : Campaign)
    (caller authorityAcc vaultBal : Nat) (r : FinalizeOk)
    (h : finalize c caller authorityAcc vaultBal = .ok r) :
    (∀ vaultBal2 : Nat,
      finalize r.campaign r.campaign.beneficiary r.campaign.authority
        vaultBal2 = .error (.code .CampaignFinalized)) ∧
    (∀ amount : Nat, 0 < amount →
      deposit r.campaign amount = .error (.code .CampaignFinalized)) ∧
    (∀ (s : ChainState) (op : Op), s.campaign = r.campaign →
      applyOp s op = s) := by
  obtain ⟨-, -, -, -, -, rfl⟩ := finalize_ok_spec h
  refine ⟨fun vaultBal2 => ?_, fun amount hpos => ?_, fun s op hs => ?_⟩
  · unfold finalize
    rw [if_neg (by simp), if_neg (by simp), if_pos (by simp)]
  · rw [deposit_finalized amount (by simp)]
    rw [if_neg (by omega)]
  · cases op with
    | deposit a =>
      exact applyOp_deposit_error (deposit_finalized a (by simp [hs]))
    | finalize caller2 authorityAcc2 =>
      obtain ⟨e, he⟩ :=
        finalize_finalized caller2 authorityAcc2 s.vault
          (c := s.campaign) (by simp [hs])
      exact applyOp_finalize_error he

/-- Claim C4 (amended), witness: the second settle and a positive deposit on
the settled campaign are both refused with `CampaignFinalized`. -/
theorem settle_idempotent_refusal_witness :
    finalize ⟨0, 100, 1, 10, 20, true⟩ 20 10 0 =
      .error (.code .CampaignFinalized) ∧
    deposit ⟨0, 100, 1, 10, 20, true⟩ 5 =
      .error (.code .CampaignFinalized) :=
  ⟨(settle_idempotent_refusal ⟨40, 100, 1, 10, 20, false⟩ 20 10 40
      ⟨⟨0, 100, 1, 10, 20, true⟩, 40, 0⟩ rfl).1 0,
   (settle_idempotent_refusal ⟨40, 100, 1, 10, 20, false⟩ 20 10 40
      ⟨⟨0, 100, 1, 10, 20, true⟩, 40, 0⟩ rfl).2.1 5 (by decide)⟩

/-- Claim C5: finalization monotonicity.  A created campaign starts with
`is_finalized = false`; no instruction ever turns `is_finalized` from `true`
back to `false`; and in every reachable state with `is_finalized = true` the
accounted funds are `0`. -/
theorem finalized_monotone (cid target creator ben : Nat) (c0 : Campaign)
    (h : initCampaign cid target creator ben = .ok c0) :
    c0.is_finalized = false ∧
    (∀ (s : ChainState) (op : Op), s.campaign.is_finalized = true →
      (applyOp s op).campaign.is_finalized = true) ∧
    (∀ ops : List Op,
      (run (initState c0) ops).campaign.is_finalized = true →
      (run (initState c0) ops).campaign.funds = 0) := by
  obtain ⟨-, rfl⟩ := initCampaign_ok_spec h
  refine ⟨rfl, fun s op hs => applyOp_finalized_mono op hs, fun ops => ?_⟩
  exact run_preserves
    (fun s => s.campaign.is_finalized = true → s.campaign.funds = 0)
    (fun s op hs => applyOp_finalized_funds op hs) ops _ (by simp [initState])

/-- Claim C5, witness: instantiated at the spec's scenario campaign. -/
theorem finalized_monotone_witness :
    (⟨0, 100, 1, 10, 20, false⟩ : Campaign).is_finalized = false ∧
    (∀ (s : ChainState) (op : Op), s.campaign.is_finalized = true →
      (applyOp s op).campaign.is_finalized = true) ∧
    (∀ ops : List Op,
      (run (initState ⟨0, 100, 1, 10, 20, false⟩) ops).campaign.is_finalized
          = true →
      (run (initState ⟨0, 100, 1, 10, 20, false⟩) ops).campaign.funds = 0) :=
  finalized_monotone 1 100 10 20 ⟨0, 100, 1, 10, 20, false⟩ rfl

/-- Claim C6: settle authorization.  A `finalize` whose calling signer
differs from the record's beneficiary fails with `Unauthorized` and leaves
the joint state (record and vault) unchanged. -/
theorem finalize_unauthorized (s : ChainState) (caller authorityAcc : Nat)
    (h : caller ≠ s.campaign.beneficiary) :
    finalize s.campaign caller authorityAcc s.vault =
      .error (.code .Unauthorized) ∧
    applyOp s (.finalize caller authorityAcc) = s := by
  have hf : finalize s.campaign caller authorityAcc s.vault =
      .error (.code .Unauthorized) := by
    unfold finalize
    rw [if_pos h]
  exact ⟨hf, applyOp_finalize_error hf⟩

/-- Claim C6, witness: identity 21 cannot settle a campaign whose
beneficiary is 20. -/
theorem finalize_unauthorized_witness :
    finalize ⟨50, 100, 1, 10, 20, false⟩ 21 10 50 =
      .error (.code .Unauthorized) ∧
    applyOp ⟨⟨50, 100, 1, 10, 20, false⟩, 50⟩ (.finalize 21 10) =
      ⟨⟨50, 100, 1, 10, 20, false⟩, 50⟩ :=
  finalize_unauthorized ⟨⟨50, 100, 1, 10, 20, false⟩, 50⟩ 21 10 (by decide)

/-- Claim C7: contribute error conditions with atomicity, read as the
ordered guards of the handler: `InvalidAmount` when `amount = 0`;
`CampaignFinalized` when the amount is positive but the record is
finalized; `TargetAlreadyReached` when the amount is positive, the record
is open and `remaining = target - funds = 0`; and every failing `deposit`
leaves the joint state unchanged. -/
theorem deposit_error_conditions (s : ChainState) (amount : Nat) :
    (amount = 0 →
      deposit s.campaign amount = .error (.code .InvalidAmount)) ∧
    (0 < amount → s.campaign.is_finalized = true →
      deposit s.campaign amount = .error (.code .CampaignFinalized)) ∧
    (0 < amount → s.campaign.is_finalized = false →
      s.campaign.funds = s.campaign.target →
      deposit s.campaign amount = .error (.code .TargetAlreadyReached)) ∧
    (∀ e : ProgError, deposit s.campaign amount = .error e →
      applyOp s (.deposit amount) = s) := by
  refine ⟨?_, ?_, ?_, fun e he => applyOp_deposit_error he⟩
  · intro h0
    simp [deposit, h0]
  · intro hpos hfin
    have h0 : ¬ amount = 0 := by omega
    simp [deposit, h0, hfin]
  · intro hpos hfin heq
    have h0 : ¬ amount = 0 := by omega
    simp [deposit, checkedSub, h0, hfin, heq]

/-- Claim C7, witness: each refusal fired on a concrete campaign. -/
theorem deposit_error_conditions_witness :
    deposit ⟨0, 100, 1, 10, 20, false⟩ 0 = .error (.code .InvalidAmount) ∧
    deposit ⟨0, 100, 1, 10, 20, true⟩ 5 =
      .error (.code .CampaignFinalized) ∧
    deposit ⟨100, 100, 1, 10, 20, false⟩ 5 =
      .error (.code .TargetAlreadyReached) :=
  ⟨(deposit_error_conditions ⟨⟨0, 100, 1, 10, 20, false⟩, 0⟩ 0).1 rfl,
   (deposit_error_conditions ⟨⟨0, 100, 1, 10, 20, true⟩, 0⟩ 5).2.1
      (by decide) rfl,
   (deposit_error_conditions ⟨⟨100, 100, 1, 10, 20, false⟩, 100⟩ 5).2.2.1
      (by decide) rfl rfl⟩

/-- Claim C8: open behaviour.  `initCampaign` with `target = 0` fails with
`InvalidAmount`; with `target > 0` it returns the record with `funds = 0`,
`is_finalized = false`, the supplied target and id, the creator as
authority and the supplied beneficiary — and the associated vault starts
empty, so no value moves. -/
theorem initCampaign_behaviour (cid target creator ben : Nat) :
    (target = 0 →
      initCampaign cid target creator ben = .error (.code .InvalidAmount)) ∧
    (0 < target →
      initCampaign cid target creator ben =
        .ok { funds := 0, target := target, campaign_id := cid,
              authority := creator, beneficiary := ben,
              is_finalized := false } ∧
      (initState { funds := 0, target := target, campaign_id := cid,
                   authority := creator, beneficiary := ben,
                   is_finalized := false }).vault = 0) := by
  constructor
  · intro h0
    unfold initCampaign
    rw [if_neg (by omega)]
  · intro hpos
    constructor
    · unfold initCampaign
      rw [if_pos hpos]
    · rfl

/-- Claim C8, witness: a zero target is refused, target 100 creates the
fresh record with an empty vault. -/
theorem initCampaign_behaviour_witness :
    initCampaign 2 0 10 20 = .error (.code .InvalidAmount) ∧
    (initCampaign 1 100 10 20 = .ok ⟨0, 100, 1, 10, 20, false⟩ ∧
     (initState ⟨0, 100, 1, 10, 20, false⟩).vault = 0) :=
  ⟨(initCampaign_behaviour 2 0 10 20).1 rfl,
   (initCampaign_behaviour 1 100 10 20).2 (by decide)⟩

/-- Claim C9: the defensive overflow checks of `deposit` are unreachable
under the invariant `funds ≤ target` (with `target` a `u64` value): the
checked subtraction `target - funds` succeeds, the checked addition
`funds + counted` succeeds because `counted = min amount remaining` is at
most `remaining`, and `deposit` never returns `MathOverflow`. -/
theorem deposit_overflow_unreachable (c : Campaign) (amount : Nat)
    (hinv : c.funds ≤ c.target) (hw : c.target < U64LIMIT) :
    checkedSub c.target c.funds = some (c.target - c.funds) ∧
    checkedAdd c.funds (min amount (c.target - c.funds)) =
      some (c.funds + min amount (c.target - c.funds)) ∧
    deposit c amount ≠ .error (.code .MathOverflow) := by
  have hmin := Nat.min_le_right amount (c.target - c.funds)
  refine ⟨checkedSub_of_le hinv, checkedAdd_of_lt (by omega), ?_⟩
  intro hbad
  by_cases h0 : amount = 0
  · simp [deposit, h0] at hbad
  by_cases hfin : c.is_finalized
  · simp [deposit, h0, hfin] at hbad
  by_cases heq : c.funds = c.target
  · simp [deposit, checkedSub, h0, hfin, heq] at hbad
  · rw [deposit_ok_of (by omega) (by simpa using hfin) (by omega) hw]
      at hbad
    simp at hbad

/-- Claim C9, witness: no `MathOverflow` on a half-funded campaign. -/
theorem deposit_overflow_unreachable_witness :
    checkedSub 100 60 = some 40 ∧
    checkedAdd 60 (min 70 40) = some 100 ∧
    deposit ⟨60, 100, 1, 10, 20, false⟩ 70 ≠
      .error (.code .MathOverflow) :=
  deposit_overflow_unreachable ⟨60, 100, 1, 10, 20, false⟩ 70
    (by decide) (by decide)

/-- Claim C10: frame property of `Contribute`.  A successful `deposit`
changes only the `funds` field of the record; target, id, authority,
beneficiary and the finalized flag are untouched. -/
theorem deposit_frame (c : Campaign) (amount : Nat) (r : DepositOk)
    (h : deposit c amount = .ok r) :
    r.campaign.target = c.target ∧
    r.campaign.campaign_id = c.campaign_id ∧
    r.campaign.authority = c.authority ∧
    r.campaign.beneficiary = c.beneficiary ∧
    r.campaign.is_finalized = c.is_finalized := by
  obtain ⟨-, -, -, rfl⟩ := deposit_ok_spec h
  exact ⟨rfl, rfl, rfl, rfl, rfl⟩

/-- Claim C10, witness: the concrete truncated deposit only moves `funds`. -/
theorem deposit_frame_witness :
    (⟨⟨100, 100, 1, 10, 20, false⟩, 40⟩ : DepositOk).campaign.target = 100 ∧
    (⟨⟨100, 100, 1, 10, 20, false⟩, 40⟩ : DepositOk).campaign.campaign_id
      = 1 ∧
    (⟨⟨100, 100, 1, 10, 20, false⟩, 40⟩ : DepositOk).campaign.authority
      = 10 ∧
    (⟨⟨100, 100, 1, 10, 20, false⟩, 40⟩ : DepositOk).campaign.beneficiary
      = 20 ∧
    (⟨⟨100, 100, 1, 10, 20, false⟩, 40⟩ : DepositOk).campaign.is_finalized
      = false :=
  deposit_frame ⟨60, 100, 1, 10, 20, false⟩ 60
    ⟨⟨100, 100, 1, 10, 20, false⟩, 40⟩ rfl

end TestProject
